import Mathlib

/-!
Verification development for the DeepWiki repository wiki generator
(`api/repo_wiki_gen.py` and `api/cli.py`).

The Python sources are shallowly embedded: strings are `String`/`List Char`,
the `xml.etree.ElementTree` tree is an inductive `Xml` with a small
executable well-formedness parser standing in for `ET.fromstring`,
regular-expression cleanup steps are modelled as explicit character-list
scans, and the CLI generation loop is a fold over the page list.
-/

/-! ## Character predicates -/

/-- Characters removed by the control-character cleanup regex
`[\x00-\x08\x0B\x0C\x0E-\x1F\x7F]` in `parse_wiki_structure_xml`. -/
def isCtlChar (c : Char) : Bool :=
  c.toNat ≤ 8 || c.toNat = 11 || c.toNat = 12 ||
    (14 ≤ c.toNat && c.toNat ≤ 31) || c.toNat = 127

/-- Whitespace as matched by the regex class `\s` (ASCII fragment). -/
def pySpaceChar (c : Char) : Bool :=
  c = ' ' || c = '\t' || c = '\n' || c = '\x0d' || c = '\x0b' || c = '\x0c'

/-! ## Substring scanning (model of `re.search` with literal patterns) -/

/-- Index of the first occurrence of `pat` in `cs` (leftmost-match rule of
`re.search`). -/
def firstOccur (pat : List Char) : List Char → Option Nat
  | [] => if pat.isPrefixOf ([] : List Char) then some 0 else none
  | c :: cs =>
    if pat.isPrefixOf (c :: cs) then some 0
    else (firstOccur pat cs).map Nat.succ

/-- Predicate: `pat` occurs in `cs` starting at index `i`. -/
def occursAt (pat cs : List Char) (i : Nat) : Prop :=
  pat.isPrefixOf (cs.drop i)

def containsSub (needle hay : List Char) : Bool :=
  (firstOccur needle hay).isSome

/-! ## Markdown fence cleanup (models the two `re.sub` fence strips) -/

def fenceChars : List Char := ['`', '`', '`']

/-- Model of `re.sub(r'^```(?:xml)?\s*', '', text, flags=IGNORECASE)`:
without MULTILINE the anchor only matches at the start of the string. -/
def stripLeadingFence (cs : List Char) : List Char :=
  if fenceChars.isPrefixOf cs then
    let rest := cs.drop 3
    let rest2 :=
      if (rest.take 3).map Char.toLower = ['x', 'm', 'l'] then rest.drop 3 else rest
    rest2.dropWhile pySpaceChar
  else cs

/-- A backtick fence at the head of `cs` followed only by whitespace up to
the end of the string: the condition under which `re.sub(r'```\s*$', '')`
matches here (without MULTILINE, `$` matches only at the end, or just
before a final newline, which `\s*` can also consume). -/
def fenceWsAt (cs : List Char) : Bool :=
  fenceChars.isPrefixOf cs && (cs.drop 3).all pySpaceChar

/-- Model of `re.sub(r'```\s*$', '', text)`: remove from the leftmost fence
that is followed only by whitespace through the end of the string. -/
def stripTrailingFence : List Char → List Char
  | [] => []
  | c :: cs => if fenceWsAt (c :: cs) then [] else c :: stripTrailingFence cs

/-! ## Locating the `<wiki_structure>` span
(model of `re.search(r'<wiki_structure>[\s\S]*?</wiki_structure>', text)`) -/

def openTagChars : List Char := "<wiki_structure>".data

def closeTagChars : List Char := "</wiki_structure>".data

/-- First (leftmost, non-greedy) `<wiki_structure>...</wiki_structure>`
span in `cs`.  `openTagChars.length = 16` and `closeTagChars.length = 17`. -/
def findSpan (cs : List Char) : Option (List Char) :=
  (firstOccur openTagChars cs).bind (fun i =>
    (firstOccur closeTagChars ((cs.drop i).drop 16)).map (fun k =>
      (cs.drop i).take (16 + k + 17)))

/-! ## XML tree model (model of `xml.etree.ElementTree`) -/

/-- An XML element: tag, attribute list, text before the first child
(`None` when empty, as in ElementTree), and child elements. -/
inductive Xml where
  | elem (tag : String) (attrs : List (String × String))
      (text : Option String) (children : List Xml)

def Xml.tag : Xml → String
  | .elem t _ _ _ => t

def Xml.attrs : Xml → List (String × String)
  | .elem _ a _ _ => a

def Xml.textOf : Xml → Option String
  | .elem _ _ t _ => t

def Xml.children : Xml → List Xml
  | .elem _ _ _ c => c

/-- Characters allowed in tag and attribute names by the model parser. -/
def isNameChar (c : Char) : Bool :=
  c.isAlphanum || c = '_' || c = '-' || c = '.'

/-- Parse a run of `name="value"` attributes, stopping at `>` or `/`. -/
def parseAttrs : Nat → List Char → Option (List (String × String) × List Char)
  | 0, _ => none
  | fuel + 1, cs0 =>
    let cs := cs0.dropWhile pySpaceChar
    match cs with
    | [] => none
    | '>' :: _ => some ([], cs)
    | '/' :: _ => some ([], cs)
    | _ =>
      let nm := cs.takeWhile isNameChar
      let cs1 := cs.dropWhile isNameChar
      if nm = [] then none
      else
        match cs1.dropWhile pySpaceChar with
        | '=' :: cs3 =>
          match cs3.dropWhile pySpaceChar with
          | '"' :: cs5 =>
            let v := cs5.takeWhile (fun c => !(c == '"'))
            match cs5.dropWhile (fun c => !(c == '"')) with
            | '"' :: cs7 =>
              match parseAttrs fuel cs7 with
              | some (rest, cs8) => some ((String.mk nm, String.mk v) :: rest, cs8)
              | none => none
            | _ => none
          | _ => none
        | _ => none

/-- Intermediate parse node: a text run or a child element. -/
inductive XNode where
  | textNode (s : List Char)
  | childNode (x : Xml)

/-- ElementTree's `.text`: the text before the first child, `None` if none. -/
def firstTextOf (items : List XNode) : Option String :=
  match items with
  | XNode.textNode s :: _ => some (String.mk s)
  | _ => none

def childrenOf (items : List XNode) : List Xml :=
  items.filterMap (fun n =>
    match n with
    | XNode.textNode _ => none
    | XNode.childNode x => some x)

mutual

/-- Parse one element starting at `<`. -/
def parseElement : Nat → List Char → Option (Xml × List Char)
  | 0, _ => none
  | fuel + 1, cs =>
    match cs with
    | '<' :: cs1 =>
      let nm := cs1.takeWhile isNameChar
      let cs2 := cs1.dropWhile isNameChar
      if nm = [] then none
      else
        match parseAttrs (cs2.length + 1) cs2 with
        | none => none
        | some (attrs, cs3) =>
          match cs3 with
          | '/' :: '>' :: cs4 => some (Xml.elem (String.mk nm) attrs none [], cs4)
          | '>' :: cs4 =>
            match parseNodes fuel cs4 with
            | none => none
            | some (items, cs5) =>
              match cs5 with
              | '<' :: '/' :: cs6 =>
                let nm2 := cs6.takeWhile isNameChar
                match (cs6.dropWhile isNameChar).dropWhile pySpaceChar with
                | '>' :: cs8 =>
                  if nm2 = nm then
                    some (Xml.elem (String.mk nm) attrs (firstTextOf items)
                      (childrenOf items), cs8)
                  else none
                | _ => none
              | _ => none
          | _ => none
    | _ => none

/-- Parse element content (text runs and child elements) until `</` or end. -/
def parseNodes : Nat → List Char → Option (List XNode × List Char)
  | 0, _ => none
  | fuel + 1, cs =>
    match cs with
    | [] => some ([], [])
    | '<' :: '/' :: _ => some ([], cs)
    | '<' :: _ =>
      match parseElement fuel cs with
      | none => none
      | some (x, cs1) =>
        match parseNodes fuel cs1 with
        | none => none
        | some (items, cs2) => some (XNode.childNode x :: items, cs2)
    | c :: cs1 =>
      let txt := (c :: cs1).takeWhile (fun ch => !(ch == '<'))
      let rest := (c :: cs1).dropWhile (fun ch => !(ch == '<'))
      match parseNodes fuel rest with
      | none => none
      | some (items, cs2) => some (XNode.textNode txt :: items, cs2)

end

/-- Raised by the model of `ET.fromstring` on unparseable input. -/
inductive XmlError where
  | malformed
deriving DecidableEq

/-- Model of `ET.fromstring`: parse one root element, reject trailing
garbage; all malformations collapse to an `XmlError` (the Python call
raises `ParseError`, caught by the surrounding `try`). -/
def fromstringChars (cs : List Char) : Except XmlError Xml :=
  match parseElement (cs.length + 1) cs with
  | none => Except.error XmlError.malformed
  | some (x, rest) =>
    if rest.dropWhile pySpaceChar = [] then Except.ok x
    else Except.error XmlError.malformed

/-! ## Data model (`repo_wiki_gen.py` dataclasses) -/

structure WikiSection where
  id : String
  title : String
  pages : List String
  subsections : Option (List String)
deriving DecidableEq

structure WikiPage where
  id : String
  title : String
  content : String
  file_paths : List String
  importance : String
  related_pages : List String
  parent_id : Option String
  is_section : Bool
  children : Option (List String)
deriving DecidableEq

structure WikiStructure where
  id : String
  title : String
  description : String
  pages : List WikiPage
  sections : List WikiSection
  root_sections : List String
deriving DecidableEq

structure RepoInfo where
  owner : String
  repo : String
  type : String
  token : Option String
  local_path : Option String
  repo_url : Option String
deriving DecidableEq

/-! ## Element accessors (ElementTree `find` / `findall` / `findtext` / `get`) -/

def Xml.findAll (x : Xml) (tag : String) : List Xml :=
  x.children.filter (fun c => decide (c.tag = tag))

def Xml.findChild (x : Xml) (tag : String) : Option Xml :=
  (x.findAll tag).head?

/-- Model of `elem.findtext(tag, default)`: default when no such child; empty string
when the child exists but has no text. -/
def Xml.findtextD (x : Xml) (tag : String) (dflt : String) : String :=
  match x.findChild tag with
  | none => dflt
  | some c =>
    match c.textOf with
    | none => ""
    | some t => t

/-- Model of `elem.get(key, default)` on the attribute dictionary. -/
def Xml.attrD (x : Xml) (key : String) (dflt : String) : String :=
  match x.attrs.lookup key with
  | none => dflt
  | some v => v

/-- Collect the texts of `elems`, skipping falsy ones
(the `if elem.text:` guards in the extraction loops). -/
def truthyTexts (elems : List Xml) : List String :=
  elems.filterMap (fun e =>
    match e.textOf with
    | none => none
    | some t => if t = "" then none else some t)

/-! ## Structure extraction (`parse_wiki_structure_xml`, lines 438-531) -/

/-- One iteration of the page loop; `idx` is `len(pages)` at entry, so the
fallback id is `page-<idx+1>`. -/
def mkWikiPage (idx : Nat) (pe : Xml) : WikiPage :=
  let raw := pe.findtextD "importance" "medium"
  { id := pe.attrD "id" ("page-" ++ toString (idx + 1))
    title := pe.findtextD "title" ""
    content := ""
    file_paths :=
      match pe.findChild "relevant_files" with
      | none => []
      | some rf => truthyTexts (rf.findAll "file_path")
    importance := if raw = "high" ∨ raw = "medium" ∨ raw = "low" then raw else "medium"
    related_pages :=
      match pe.findChild "related_pages" with
      | none => []
      | some rp => truthyTexts (rp.findAll "related")
    parent_id := none
    is_section := false
    children := none }

def pageElems (root : Xml) : List Xml :=
  match root.findChild "pages" with
  | none => []
  | some pe => pe.findAll "page"

/-- One iteration of the section loop (comprehensive mode only). -/
def mkWikiSection (idx : Nat) (se : Xml) : WikiSection :=
  let subs :=
    match se.findChild "subsections" with
    | none => []
    | some ss => truthyTexts (ss.findAll "section_ref")
  { id := se.attrD "id" ("section-" ++ toString (idx + 1))
    title := se.findtextD "title" ""
    pages :=
      match se.findChild "pages" with
      | none => []
      | some ps => truthyTexts (ps.findAll "page_ref")
    subsections := if subs = [] then none else some subs }

def sectionElems (comp : Bool) (root : Xml) : List Xml :=
  if comp then
    match root.findChild "sections" with
    | none => []
    | some se => se.findAll "section"
  else []

/-- The `referenced_sections` set: union of all `subsections` lists
(membership is all that is ever queried of it). -/
def referencedSections (sections : List WikiSection) : List String :=
  sections.foldl (fun acc s =>
    match s.subsections with
    | none => acc
    | some l => acc ++ l) []

/-- Model of `root_sections = [s.id for s in sections if s.id not in referenced_sections]`. -/
def computeRootSections (sections : List WikiSection) : List String :=
  (sections.filter (fun s => decide (s.id ∉ referencedSections sections))).map
    (fun s => s.id)

/-- Build the `WikiStructure` from the parsed root element
(`is_comprehensive` guards section extraction). -/
def extractStructure (comp : Bool) (root : Xml) : WikiStructure :=
  let pages := (pageElems root).enum.map (fun p => mkWikiPage p.1 p.2)
  let sections := (sectionElems comp root).enum.map (fun p => mkWikiSection p.1 p.2)
  { id := "wiki"
    title := root.findtextD "title" ""
    description := root.findtextD "description" ""
    pages := pages
    sections := sections
    root_sections := computeRootSections sections }

/-! ## Top-level parse (`parse_wiki_structure_xml`, lines 419-535) -/

def cleanCtl (cs : List Char) : List Char :=
  cs.filter (fun c => !(isCtlChar c))

/-- Steps 1-3 of the parser: control-character strip, leading fence strip,
trailing fence strip. -/
def cleanupChars (cs : List Char) : List Char :=
  stripTrailingFence (stripLeadingFence (cleanCtl cs))

/-- Model of `parse_wiki_structure_xml(self, xml_text)`: the whole body runs inside
`try/except Exception`, so the parse error from `ET.fromstring` becomes
`None`, as does a missing span. -/
def parse_wiki_structure_xml (comp : Bool) (s : String) : Option WikiStructure :=
  match findSpan (cleanupChars s.data) with
  | none => none
  | some sp =>
    match fromstringChars sp with
    | Except.error _ => none
    | Except.ok root => some (extractStructure comp root)

/-- The body of `parse_wiki_structure_xml` before the `except` handler:
`ET.fromstring` may raise, which this model surfaces as `Except.error`. -/
def parseWikiStructureBody (comp : Bool) (s : String) :
    Except XmlError (Option WikiStructure) :=
  match findSpan (cleanupChars s.data) with
  | none => Except.ok none
  | some sp =>
    match fromstringChars sp with
    | Except.error e => Except.error e
    | Except.ok root => Except.ok (some (extractStructure comp root))

/-- Failure taxonomy of the spec for the structure parser. -/
inductive ParseFailure where
  | structureNotFound
  | malformedStructure
deriving DecidableEq

/-- Modelled from the spec: the failure labels `StructureNotFound` (no span
located, the `return None` at the `No valid XML found` log) and
`MalformedStructure` (span located but `ET.fromstring` raised). -/
def parseOutcome (comp : Bool) (s : String) : Except ParseFailure WikiStructure :=
  match findSpan (cleanupChars s.data) with
  | none => Except.error ParseFailure.structureNotFound
  | some sp =>
    match fromstringChars sp with
    | Except.error _ => Except.error ParseFailure.malformedStructure
    | Except.ok root => Except.ok (extractStructure comp root)

/-! ## File-link derivation (`generate_file_url`, lines 145-171) -/

/-- Model of `urllib.parse.urlparse(url).hostname` for URLs of the form
`scheme://netloc/...`: netloc up to `/`, `?` or `#`, userinfo before the
last `@` removed, port after `:` removed, lowercased; `None` when there is
no `://` or the host is empty. -/
def hostnameOf (url : String) : Option String :=
  match firstOccur "://".data url.data with
  | none => none
  | some i =>
    let after := url.data.drop (i + 3)
    let netloc := after.takeWhile (fun c => !(c == '/') && !(c == '?') && !(c == '#'))
    let host0 := (netloc.splitOn '@').getLastD netloc
    let host1 := (host0.takeWhile (fun c => !(c == ':'))).map Char.toLower
    if host1 = [] then none else some (String.mk host1)

/-- The slice of `WikiGenerator` state that `generate_file_url` reads. -/
structure WikiGeneratorState where
  repo_info : RepoInfo
  default_branch : String
deriving DecidableEq

/-- Constructor slice: `WikiGenerator.__init__` sets `self.default_branch = 'main'`. -/
def WikiGenerator_init (info : RepoInfo) : WikiGeneratorState :=
  { repo_info := info, default_branch := "main" }

def generate_file_url (g : WikiGeneratorState) (file_path : String) : String :=
  if g.repo_info.type = "local" then file_path
  else
    match g.repo_info.repo_url with
    | none => file_path
    | some url =>
      if url = "" then file_path
      else
        match hostnameOf url with
        | none => file_path
        | some h =>
          if containsSub "github".data h.data then
            url ++ "/blob/" ++ g.default_branch ++ "/" ++ file_path
          else if containsSub "gitlab".data h.data then
            url ++ "/-/blob/" ++ g.default_branch ++ "/" ++ file_path
          else if containsSub "bitbucket".data h.data then
            url ++ "/src/" ++ g.default_branch ++ "/" ++ file_path
          else file_path

/-- Modelled from the spec: the file-link template table of section 6,
keyed by the hosting kind of the data model (the `RepoInfo.type` field). -/
def specFileUrl (kind repo_url branch path : String) : String :=
  if kind = "github" then repo_url ++ "/blob/" ++ branch ++ "/" ++ path
  else if kind = "gitlab" then repo_url ++ "/-/blob/" ++ branch ++ "/" ++ path
  else if kind = "bitbucket" then repo_url ++ "/src/" ++ branch ++ "/" ++ path
  else path

/-! ## Context assembly (`cli.py` `generate`, lines 164-189 and 252-261) -/

/-- A retrieved fragment: `doc.meta_data.get('file_path', 'unknown')` and
`doc.text`. -/
structure RetrievedDoc where
  file_path : Option String
  text : String
deriving DecidableEq

def docPath (d : RetrievedDoc) : String :=
  match d.file_path with
  | none => "unknown"
  | some p => p

/-- Insert into the `docs_by_file` dict: append to the existing key's list
or add a new key at the end (Python dicts preserve insertion order). -/
def insertDoc (groups : List (String × List RetrievedDoc)) (fp : String)
    (d : RetrievedDoc) : List (String × List RetrievedDoc) :=
  match groups with
  | [] => [(fp, [d])]
  | (k, ds) :: rest =>
    if k = fp then (k, ds ++ [d]) :: rest else (k, ds) :: insertDoc rest fp d

def groupDocsByFile (docs : List RetrievedDoc) : List (String × List RetrievedDoc) :=
  docs.foldl (fun g d => insertDoc g (docPath d) d) []

/-- One entry of `context_parts` on the structure-discovery path:
header plus same-file texts joined by a blank line. -/
def structureContextParts (docs : List RetrievedDoc) : List String :=
  (groupDocsByFile docs).map (fun kv =>
    "## File Path: " ++ kv.1 ++ "\n\n" ++
      String.intercalate "\n\n" (kv.2.map (fun d => d.text)))

/-- Model of `context_text = "\n\n" + "-" * 10 + "\n\n".join(context_parts)` (note the
precedence: the dash run is prepended once, the parts are joined by a
blank line); empty when nothing was retrieved. -/
def structureContextText (docs : List RetrievedDoc) : String :=
  if docs.isEmpty then ""
  else "\n\n" ++ "----------" ++ String.intercalate "\n\n" (structureContextParts docs)

/-- One entry of `context_parts` on the page-content path: one block per
fragment, no grouping. -/
def pageFragmentBlock (d : RetrievedDoc) : String :=
  "File: " ++ docPath d ++ "\n" ++ d.text

/-- Page-content context: `for doc in documents[:15]` then
`"\n\n---\n\n".join(context_parts)`; empty when nothing was retrieved. -/
def pageContextText (docs : List RetrievedDoc) : String :=
  if docs.isEmpty then ""
  else String.intercalate "\n\n---\n\n" ((docs.take 15).map pageFragmentBlock)

/-! ## Page persistence loop and index (`cli.py` `generate`, lines 241-317) -/

def keepFilenameChar (c : Char) : Bool :=
  c.isAlphanum || c = ' ' || c = '-' || c = '_'

/-- Filename sanitization: `"".join(c for c in title if ...).strip().replace(' ', '_')`. -/
def safeFilename (title : String) : String :=
  let kept := title.data.filter keepFilenameChar
  let trimmed := ((kept.dropWhile pySpaceChar).reverse.dropWhile pySpaceChar).reverse
  String.mk (trimmed.map (fun c => if c = ' ' then '_' else c))

/-- Model of `str.replace(old, '')`: remove all non-overlapping occurrences,
scanning left to right. -/
def replaceRemoveFuel (pat : List Char) : Nat → List Char → List Char
  | 0, cs => cs
  | fuel + 1, cs =>
    match cs with
    | [] => []
    | c :: rest =>
      if pat ≠ [] ∧ pat.isPrefixOf (c :: rest) then
        replaceRemoveFuel pat fuel ((c :: rest).drop pat.length)
      else c :: replaceRemoveFuel pat fuel rest

def replaceRemove (pat cs : List Char) : List Char :=
  replaceRemoveFuel pat cs.length cs

/-- Model of `page_content.replace('```markdown', '').replace('```', '')`. -/
def cleanPageContent (s : String) : String :=
  String.mk (replaceRemove "```".data (replaceRemove "```markdown".data s.data))

/-- The per-page outcome: `None` models the `if not page_content: continue`
skip (absent or empty Generator response); otherwise the artifact
`(filename, cleaned content)`. -/
def processPageResponse (p : WikiPage) (resp : Option String) :
    Option (String × String) :=
  match resp with
  | none => none
  | some c =>
    if c = "" then none
    else some (safeFilename p.title ++ ".md", cleanPageContent c)

/-- Run state of the generation loop: files written so far and the warning
log of skipped pages. -/
structure RunState where
  written : List (String × String)
  warnings : List String
deriving DecidableEq

def runPagesStep (gen : WikiPage → Option String) (st : RunState) (p : WikiPage) :
    RunState :=
  match processPageResponse p (gen p) with
  | none => { written := st.written, warnings := st.warnings ++ [p.title] }
  | some file => { written := st.written ++ [file], warnings := st.warnings }

/-- Step 6 of the CLI `generate` command: the sequential per-page loop. -/
def runPages (gen : WikiPage → Option String) (pages : List WikiPage) : RunState :=
  pages.foldl (runPagesStep gen) { written := [], warnings := [] }

/-- One line of the `README.md` page list; written for every page of the
structure, in declaration order (lines 314-317). -/
def indexLinkLine (p : WikiPage) : String :=
  "- [" ++ p.title ++ "](./" ++ safeFilename p.title ++ ".md)\n"

def indexLines (w : WikiStructure) : List String :=
  w.pages.map indexLinkLine

/-- Step 7: the full `README.md` index artifact. -/
def indexContent (w : WikiStructure) : String :=
  "# " ++ w.title ++ "\n\n" ++ w.description ++ "\n\n" ++ "## Pages\n\n" ++
    String.join (indexLines w)

/-! ## Spec-side characterizations -/

/-- Modelled from the spec: the union of all ids referenced as a child
across all sections. -/
def childRefUnion (sections : List WikiSection) : List String :=
  (sections.map (fun s =>
    match s.subsections with
    | none => []
    | some l => l)).flatten

/-- Modelled from the spec: distinct file paths in first-seen order. -/
def firstSeenPaths : List String → List String → List String
  | _, [] => []
  | seen, p :: ps =>
    if p ∈ seen then firstSeenPaths seen ps
    else p :: firstSeenPaths (seen ++ [p]) ps

/-- Modelled from the spec: the scenario payload wrapped in a fenced code
block with a leading explanatory sentence. -/
def wrapPayload (p : String) : String :=
  "Here is the wiki structure:\n" ++ "```" ++ "xml\n" ++ p ++ "\n" ++ "```"

/-! ## Decidability of `Except` equality (for concrete evaluations) -/

instance instDecEqExcept {e a : Type} [DecidableEq e] [DecidableEq a] :
    DecidableEq (Except e a) := fun x y =>
  match x, y with
  | .error u, .error v =>
    if h : u = v then isTrue (by rw [h]) else isFalse (fun hc => h (by cases hc; rfl))
  | .error _, .ok _ => isFalse (fun hc => Except.noConfusion hc)
  | .ok _, .error _ => isFalse (fun hc => Except.noConfusion hc)
  | .ok u, .ok v =>
    if h : u = v then isTrue (by rw [h]) else isFalse (fun hc => h (by cases hc; rfl))

set_option maxRecDepth 40000

/-! ## Lemmas about `List.isPrefixOf` over `List Char` -/

lemma prfOf_le (pat : List Char) :
    ∀ l : List Char, pat.isPrefixOf l = true → pat.length ≤ l.length := by
  induction pat with
  | nil => intro l _; simp
  | cons a as ih =>
    intro l h
    cases l with
    | nil => simp [List.isPrefixOf] at h
    | cons b bs =>
      simp only [List.isPrefixOf, Bool.and_eq_true] at h
      simpa using ih bs h.2

lemma prfOf_append_ext (pat : List Char) :
    ∀ x y : List Char, pat.isPrefixOf x = true → pat.isPrefixOf (x ++ y) = true := by
  induction pat with
  | nil => intro x y _; simp [List.isPrefixOf]
  | cons a as ih =>
    intro x y h
    cases x with
    | nil => simp [List.isPrefixOf] at h
    | cons b bs =>
      simp only [List.isPrefixOf, Bool.and_eq_true] at h
      simp only [List.cons_append, List.isPrefixOf, Bool.and_eq_true]
      exact ⟨h.1, ih bs y h.2⟩

lemma prfOf_fit (pat : List Char) :
    ∀ x y : List Char, pat.length ≤ x.length →
      pat.isPrefixOf (x ++ y) = true → pat.isPrefixOf x = true := by
  induction pat with
  | nil => intro x y _ _; simp [List.isPrefixOf]
  | cons a as ih =>
    intro x y hl h
    cases x with
    | nil => simp at hl
    | cons b bs =>
      simp only [List.cons_append, List.isPrefixOf, Bool.and_eq_true] at h
      simp only [List.isPrefixOf, Bool.and_eq_true]
      exact ⟨h.1, ih bs y (by simpa using hl) h.2⟩

/-! ## Lemmas about `firstOccur` -/

lemma occursAt_cons_succ (pat : List Char) (c : Char) (cs : List Char) (j : Nat) :
    occursAt pat (c :: cs) (j + 1) ↔ occursAt pat cs j := Iff.rfl

lemma firstOccur_some_occurs (pat : List Char) :
    ∀ cs i, firstOccur pat cs = some i → occursAt pat cs i := by
  intro cs
  induction cs with
  | nil =>
    intro i h
    simp only [firstOccur] at h
    by_cases hp : pat.isPrefixOf ([] : List Char) = true
    · simp [hp] at h; cases h; exact hp
    · simp [hp] at h
  | cons c cs ih =>
    intro i h
    simp only [firstOccur] at h
    by_cases hp : pat.isPrefixOf (c :: cs) = true
    · simp [hp] at h; cases h; exact hp
    · simp [hp] at h
      obtain ⟨i', hi', rfl⟩ := h
      exact (occursAt_cons_succ pat c cs i').mpr (ih i' hi')

lemma firstOccur_some_min (pat : List Char) :
    ∀ cs i, firstOccur pat cs = some i → ∀ j, j < i → ¬ occursAt pat cs j := by
  intro cs
  induction cs with
  | nil =>
    intro i h j hj
    simp only [firstOccur] at h
    by_cases hp : pat.isPrefixOf ([] : List Char) = true
    · simp [hp] at h; omega
    · simp [hp] at h
  | cons c cs ih =>
    intro i h j hj
    simp only [firstOccur] at h
    by_cases hp : pat.isPrefixOf (c :: cs) = true
    · simp [hp] at h; omega
    · simp [hp] at h
      obtain ⟨i', hi', rfl⟩ := h
      cases j with
      | zero => exact hp
      | succ j' =>
        exact ih i' hi' j' (by omega)

lemma firstOccur_none_nowhere (pat : List Char) :
    ∀ cs, firstOccur pat cs = none → ∀ j, ¬ occursAt pat cs j := by
  intro cs
  induction cs with
  | nil =>
    intro h j
    simp only [firstOccur] at h
    by_cases hp : pat.isPrefixOf ([] : List Char) = true
    · simp [hp] at h
    · intro hc
      unfold occursAt at hc
      rw [List.drop_nil] at hc
      exact hp hc
  | cons c cs ih =>
    intro h j
    simp only [firstOccur] at h
    by_cases hp : pat.isPrefixOf (c :: cs) = true
    · simp [hp] at h
    · simp [hp] at h
      cases j with
      | zero => exact hp
      | succ j' => exact ih h j'

lemma firstOccur_of_occurs_min (pat : List Char) :
    ∀ cs i, occursAt pat cs i → (∀ j, j < i → ¬ occursAt pat cs j) →
      firstOccur pat cs = some i := by
  intro cs
  induction cs with
  | nil =>
    intro i hi hmin
    unfold occursAt at hi
    rw [List.drop_nil] at hi
    have hi0 : i = 0 := by
      by_contra hne
      exact hmin 0 (by omega) (by unfold occursAt; rw [List.drop_nil]; exact hi)
    subst hi0
    simp [firstOccur, hi]
  | cons c cs ih =>
    intro i hi hmin
    by_cases hp : pat.isPrefixOf (c :: cs) = true
    · have hi0 : i = 0 := by
        by_contra hne
        exact hmin 0 (by omega) hp
      subst hi0
      simp [firstOccur, hp]
    · cases i with
      | zero => exact absurd hi hp
      | succ i' =>
        have : firstOccur pat cs = some i' :=
          ih i' hi (fun j hj => hmin (j + 1) (by omega))
        simp [firstOccur, hp, this]

lemma firstOccur_le (pat : List Char) :
    ∀ cs i, firstOccur pat cs = some i → i ≤ cs.length := by
  intro cs
  induction cs with
  | nil =>
    intro i h
    simp only [firstOccur] at h
    by_cases hp : pat.isPrefixOf ([] : List Char) = true
    · simp [hp] at h; omega
    · simp [hp] at h
  | cons c cs ih =>
    intro i h
    simp only [firstOccur] at h
    by_cases hp : pat.isPrefixOf (c :: cs) = true
    · simp [hp] at h; omega
    · simp [hp] at h
      obtain ⟨i', hi', rfl⟩ := h
      have := ih i' hi'
      simp
      omega

lemma firstOccur_le_length (pat : List Char) (cs : List Char) (i : Nat)
    (h : firstOccur pat cs = some i) : i + pat.length ≤ cs.length := by
  have ho := firstOccur_some_occurs pat cs i h
  unfold occursAt at ho
  have h1 := prfOf_le pat _ ho
  rw [List.length_drop] at h1
  have h2 := firstOccur_le pat cs i h
  omega

/-! ## Drop and take over appends -/

lemma drop_append_le {α : Type} (x y : List α) :
    ∀ i, i ≤ x.length → (x ++ y).drop i = x.drop i ++ y := by
  induction x with
  | nil =>
    intro i h
    have hz : i = 0 := Nat.le_zero.mp (by simpa using h)
    subst hz; simp
  | cons a as ih =>
    intro i h
    cases i with
    | zero => simp
    | succ i' => simpa using ih i' (by simpa using h)

lemma take_append_le {α : Type} (x y : List α) :
    ∀ n, n ≤ x.length → (x ++ y).take n = x.take n := by
  induction x with
  | nil =>
    intro n h
    have hz : n = 0 := Nat.le_zero.mp (by simpa using h)
    subst hz; simp
  | cons a as ih =>
    intro n h
    cases n with
    | zero => simp
    | succ n' => simpa using ih n' (by simpa using h)

lemma drop_append_add {α : Type} (x y : List α) :
    ∀ i, (x ++ y).drop (x.length + i) = y.drop i := by
  induction x with
  | nil => intro i; simp
  | cons a as ih => intro i; simp [Nat.succ_add]

/-! ## Occurrence transfer along appends -/

lemma firstOccur_extend (pat x y : List Char) (i : Nat)
    (h : firstOccur pat x = some i) : firstOccur pat (x ++ y) = some i := by
  have ho := firstOccur_some_occurs pat x i h
  have hb := firstOccur_le_length pat x i h
  apply firstOccur_of_occurs_min
  · unfold occursAt at ho ⊢
    rw [drop_append_le x y i (by omega)]
    exact prfOf_append_ext pat _ y ho
  · intro j hj hc
    unfold occursAt at hc
    rw [drop_append_le x y j (by omega)] at hc
    have hfit : pat.length ≤ (x.drop j).length := by
      rw [List.length_drop]; omega
    exact firstOccur_some_min pat x i h j hj (prfOf_fit pat _ y hfit hc)

lemma firstOccur_shift (pat : List Char) (c0 : Char) (pat' : List Char)
    (hpat : pat = c0 :: pat') (a b : List Char) (ha : c0 ∉ a) (i : Nat)
    (h : firstOccur pat b = some i) :
    firstOccur pat (a ++ b) = some (a.length + i) := by
  induction a with
  | nil => simpa using h
  | cons a0 as ih =>
    have hne : (pat.isPrefixOf (a0 :: (as ++ b))) = false := by
      subst hpat
      have : (c0 == a0) = false := by
        rw [beq_eq_false_iff_ne]
        intro hcc
        exact ha (by rw [hcc]; exact List.mem_cons_self a0 as)
      simp [List.isPrefixOf, this]
    have ih' := ih (fun hm => ha (List.mem_cons_of_mem a0 hm))
    show firstOccur pat (a0 :: (as ++ b)) = some (as.length + 1 + i)
    simp only [firstOccur, hne]
    rw [if_neg (by simp [hne]), ih']
    simp
    omega

/-! ## Fence-stripping lemmas -/

lemma fenceWsAt_false_of_no_fence (cs : List Char)
    (h : fenceChars.isPrefixOf cs = false) : fenceWsAt cs = false := by
  simp [fenceWsAt, h]

lemma stripTrailing_of_no_match (cs : List Char)
    (h : ∀ i, fenceWsAt (cs.drop i) = false) : stripTrailingFence cs = cs := by
  induction cs with
  | nil => rfl
  | cons c cs ih =>
    have h0 := h 0
    rw [List.drop_zero] at h0
    simp only [stripTrailingFence, h0, Bool.false_eq_true, if_false]
    rw [ih (fun i => h (i + 1))]

lemma stripTrailing_append (a b : List Char)
    (h : ∀ i, i < a.length → fenceWsAt ((a ++ b).drop i) = false) :
    stripTrailingFence (a ++ b) = a ++ stripTrailingFence b := by
  induction a with
  | nil => simp
  | cons a0 as ih =>
    have h0 := h 0 (by simp)
    rw [List.drop_zero] at h0
    rw [List.cons_append]
    simp only [stripTrailingFence]
    rw [List.cons_append] at h0
    simp only [h0, Bool.false_eq_true, if_false]
    rw [ih (fun i hi => h (i + 1) (by simpa using Nat.succ_lt_succ hi))]
    rfl

lemma stripLeading_of_no_fence (cs : List Char)
    (h : fenceChars.isPrefixOf cs = false) : stripLeadingFence cs = cs := by
  simp [stripLeadingFence, h]

lemma fence_not_at_head (c : Char) (cs : List Char) (hc : c ≠ '`') :
    fenceChars.isPrefixOf (c :: cs) = false := by
  have hb : ('`' == c) = false := by
    rw [beq_eq_false_iff_ne]
    exact fun hcc => hc hcc.symm
  simp [fenceChars, List.isPrefixOf, hb]

lemma backtick_mem_drop (a : List Char) :
    ∀ n, n ≤ a.length + 2 → '`' ∈ (a ++ fenceChars).drop n := by
  induction a with
  | nil =>
    intro n h
    match n, h with
    | 0, _ => decide
    | 1, _ => decide
    | 2, _ => decide
  | cons c as ih =>
    intro n h
    cases n with
    | zero =>
      rw [List.drop_zero]
      exact List.mem_append_right _ (by decide)
    | succ n' =>
      rw [List.cons_append, List.drop_succ_cons]
      exact ih n' (by simpa using h)

lemma fenceWsAt_false_before_end (a : List Char) (i : Nat) (hi : i < a.length) :
    fenceWsAt ((a ++ fenceChars).drop i) = false := by
  have hmem : '`' ∈ ((a ++ fenceChars).drop i).drop 3 := by
    rw [List.drop_drop]
    exact backtick_mem_drop a (i + 3) (by omega)
  have hall : (((a ++ fenceChars).drop i).drop 3).all pySpaceChar = false := by
    cases h2 : (((a ++ fenceChars).drop i).drop 3).all pySpaceChar with
    | false => rfl
    | true =>
      have := (List.all_eq_true.mp h2) '`' hmem
      simp [pySpaceChar] at this
  simp only [fenceWsAt, hall, Bool.and_false]

lemma stripTrailing_cut_last_fence (a : List Char) :
    stripTrailingFence (a ++ fenceChars) = a := by
  rw [stripTrailing_append a fenceChars (fun i hi => fenceWsAt_false_before_end a i hi)]
  have : stripTrailingFence fenceChars = [] := by decide
  rw [this, List.append_nil]

/-! ## Control-character cleanup lemmas -/

lemma cleanCtl_append (a b : List Char) :
    cleanCtl (a ++ b) = cleanCtl a ++ cleanCtl b := by
  simp [cleanCtl, List.filter_append]

/-! ## Payload wrapping: data-level decomposition -/

/-- Character sequence of the leading sentence plus opening fence of
`wrapPayload`. -/
def wrapPre : List Char := ("Here is the wiki structure:\n" ++ "```" ++ "xml\n").data

lemma wrap_data (p : String) :
    (wrapPayload p).data = wrapPre ++ (p.data ++ ('\n' :: fenceChars)) := by
  show (("Here is the wiki structure:\n" ++ "```" ++ "xml\n" ++ p ++ "\n" ++ "```") : String).data = _
  have hd : ∀ s t : String, (s ++ t).data = s.data ++ t.data := fun s t => rfl
  rw [hd, hd, hd, hd, hd]
  have h1 : ("\n" : String).data = ['\n'] := by decide
  have h2 : ("```" : String).data = fenceChars := by decide
  rw [h1, h2]
  show wrapPre ++ p.data ++ ['\n'] ++ fenceChars = _
  simp [List.append_assoc]

/-! ## Grouping lemmas (context assembler, structure-discovery path) -/

lemma insertDoc_keys (fp : String) (d : RetrievedDoc) :
    ∀ g, (insertDoc g fp d).map Prod.fst =
      if fp ∈ g.map Prod.fst then g.map Prod.fst else g.map Prod.fst ++ [fp] := by
  intro g
  induction g with
  | nil => simp [insertDoc]
  | cons kv rest ih =>
    obtain ⟨k, ds⟩ := kv
    by_cases hk : k = fp
    · subst hk
      simp [insertDoc]
    · simp only [insertDoc, hk, if_false]
      by_cases hmem : fp ∈ rest.map Prod.fst
      · simp [hmem, ih, hk, Ne.symm hk]
      · simp [hmem, ih, hk, Ne.symm hk]

lemma groupFold_keys (docs : List RetrievedDoc) :
    ∀ g, ((docs.foldl (fun g d => insertDoc g (docPath d) d) g).map Prod.fst) =
      g.map Prod.fst ++ firstSeenPaths (g.map Prod.fst) (docs.map docPath) := by
  induction docs with
  | nil => intro g; simp [firstSeenPaths]
  | cons d ds ih =>
    intro g
    show ((ds.foldl (fun g d => insertDoc g (docPath d) d)
      (insertDoc g (docPath d) d)).map Prod.fst) = _
    rw [ih (insertDoc g (docPath d) d), insertDoc_keys]
    by_cases hmem : docPath d ∈ g.map Prod.fst
    · simp only [hmem, if_true, List.map_cons]
      rw [firstSeenPaths]
      simp [hmem]
    · simp only [hmem, if_false, List.map_cons]
      rw [firstSeenPaths]
      simp only [hmem, if_false]
      rw [List.append_assoc]
      rfl

lemma firstSeen_nodup_disjoint (ps : List String) :
    ∀ seen, (firstSeenPaths seen ps).Nodup ∧
      ∀ x ∈ firstSeenPaths seen ps, x ∉ seen := by
  induction ps with
  | nil => intro seen; simp [firstSeenPaths]
  | cons p ps ih =>
    intro seen
    by_cases hmem : p ∈ seen
    · rw [firstSeenPaths]
      simp only [hmem, if_true]
      exact ih seen
    · rw [firstSeenPaths]
      simp only [hmem, if_false]
      obtain ⟨hnd, hdisj⟩ := ih (seen ++ [p])
      constructor
      · rw [List.nodup_cons]
        refine ⟨fun hc => ?_, hnd⟩
        exact hdisj p hc (by simp)
      · intro x hx hxs
        cases List.mem_cons.mp hx with
        | inl h => exact hmem (h ▸ hxs)
        | inr h => exact hdisj x h (by simp [hxs])

lemma insertDoc_lookup (k : String) (d : RetrievedDoc) :
    ∀ g fp, (insertDoc g k d).lookup fp =
      if fp = k then some (((g.lookup k).getD []) ++ [d]) else g.lookup fp := by
  intro g
  induction g with
  | nil =>
    intro fp
    by_cases h : fp = k
    · subst h; simp [insertDoc, List.lookup]
    · simp [insertDoc, List.lookup, h, beq_eq_false_iff_ne.mpr h]
  | cons kv rest ih =>
    obtain ⟨k0, ds0⟩ := kv
    intro fp
    by_cases hk : k0 = k
    · subst hk
      by_cases h : fp = k0
      · subst h; simp [insertDoc, List.lookup]
      · simp [insertDoc, List.lookup, h, beq_eq_false_iff_ne.mpr h]
    · simp only [insertDoc, hk, if_false]
      by_cases h : fp = k0
      · subst h
        simp [List.lookup, hk]
      · simp only [List.lookup, beq_eq_false_iff_ne.mpr h, Bool.false_eq_true, if_false,
          beq_eq_false_iff_ne.mpr (Ne.symm hk)]
        exact ih fp

lemma groupFold_lookup (docs : List RetrievedDoc) :
    ∀ g fp, (((docs.foldl (fun g d => insertDoc g (docPath d) d) g).lookup fp).getD []) =
      ((g.lookup fp).getD []) ++ docs.filter (fun d => decide (docPath d = fp)) := by
  induction docs with
  | nil => intro g fp; simp
  | cons d ds ih =>
    intro g fp
    show ((ds.foldl (fun g d => insertDoc g (docPath d) d)
      (insertDoc g (docPath d) d)).lookup fp).getD [] = _
    rw [ih (insertDoc g (docPath d) d) fp, insertDoc_lookup]
    by_cases h : fp = docPath d
    · subst h
      simp only [if_true, Option.getD_some, List.filter_cons]
      simp [List.append_assoc]
    · simp only [h, if_false, List.filter_cons]
      have hne : (decide (docPath d = fp)) = false := by
        simp
        exact fun hc => h hc.symm
      simp [hne]

/-! ## Generation-loop lemmas (persistence and warnings) -/

lemma runPages_foldl (gen : WikiPage → Option String) (pages : List WikiPage) :
    ∀ st, (pages.foldl (runPagesStep gen) st).written =
        st.written ++ pages.filterMap (fun p => processPageResponse p (gen p)) ∧
      (pages.foldl (runPagesStep gen) st).warnings =
        st.warnings ++
          (pages.filter (fun p => (processPageResponse p (gen p)).isNone)).map
            (fun p => p.title) := by
  induction pages with
  | nil => intro st; simp
  | cons p ps ih =>
    intro st
    rw [List.foldl_cons]
    obtain ⟨ihw, ihl⟩ := ih (runPagesStep gen st p)
    rw [ihw, ihl]
    cases hp : processPageResponse p (gen p) with
    | none =>
      simp [runPagesStep, hp, List.filter_cons, List.filterMap_cons]
    | some file =>
      simp [runPagesStep, hp, List.filter_cons, List.filterMap_cons]

/-! ## Root-section lemmas -/

lemma mem_referencedSections (x : String) (sections : List WikiSection) :
    x ∈ referencedSections sections ↔ x ∈ childRefUnion sections := by
  have main : ∀ (ss : List WikiSection) (acc : List String),
      x ∈ ss.foldl (fun acc s =>
        match s.subsections with
        | none => acc
        | some l => acc ++ l) acc ↔ x ∈ acc ∨ x ∈ childRefUnion ss := by
    intro ss
    induction ss with
    | nil => intro acc; simp [childRefUnion]
    | cons s rest ih =>
      intro acc
      show x ∈ rest.foldl _ (match s.subsections with
        | none => acc
        | some l => acc ++ l) ↔ _
      rw [ih]
      cases hs : s.subsections with
      | none => simp [childRefUnion, hs]
      | some l =>
        simp only [childRefUnion, List.map_cons, List.flatten_cons, hs,
          List.mem_append]
        tauto
  have := main sections []
  simpa [referencedSections] using this

lemma computeRootSections_spec (sections : List WikiSection) :
    computeRootSections sections =
      (sections.filter (fun s => decide (s.id ∉ childRefUnion sections))).map
        (fun s => s.id) := by
  unfold computeRootSections
  congr 1
  apply List.filter_congr
  intro s _
  rw [decide_eq_decide]
  rw [mem_referencedSections]

/-! ## Shared parse-shape lemma -/

lemma parse_some_extract (comp : Bool) (s : String) (w : WikiStructure)
    (h : parse_wiki_structure_xml comp s = some w) :
    ∃ root, w = extractStructure comp root := by
  unfold parse_wiki_structure_xml at h
  cases h1 : findSpan (cleanupChars s.data) with
  | none => simp [h1] at h
  | some sp =>
    cases h2 : fromstringChars sp with
    | error e => simp [h1, h2] at h
    | ok root =>
      simp [h1, h2] at h
      exact ⟨root, h.symm⟩

/-! ## Claim C2 -/

/-- Concrete payload with two mutually-referencing sections. -/
def c2Payload : String := "<wiki_structure><title>T</title><sections><section id=\"s1\"><subsections><section_ref>s2</section_ref></subsections></section><section id=\"s2\"><subsections><section_ref>s1</section_ref></subsections></section></sections></wiki_structure>"

def c2Cyclic : WikiStructure :=
  { id := "wiki", title := "T", description := "",
    pages := [],
    sections := [
      { id := "s1", title := "", pages := [], subsections := some ["s2"] },
      { id := "s2", title := "", pages := [], subsections := some ["s1"] }],
    root_sections := [] }

/-- C2: for every parsed WikiStructure, `root_sections` is exactly the ids of
sections not contained in the union of all child-section references, in
section declaration order; the empty section list yields an empty root set;
and a parsed structure whose sections all reference each other has an empty
root set, so at least one root is not guaranteed. -/
theorem C2_root_section_inference :
    (∀ (comp : Bool) (s : String) (w : WikiStructure),
      parse_wiki_structure_xml comp s = some w →
        w.root_sections =
          (w.sections.filter
            (fun sec => decide (sec.id ∉ childRefUnion w.sections))).map
            (fun sec => sec.id) ∧
        (w.sections = [] → w.root_sections = [])) ∧
    (∃ (s : String) (w : WikiStructure),
      parse_wiki_structure_xml true s = some w ∧
        w.sections ≠ [] ∧ w.root_sections = []) := by
  constructor
  · intro comp s w h
    obtain ⟨root, rfl⟩ := parse_some_extract comp s w h
    have hmain : (extractStructure comp root).root_sections =
        ((extractStructure comp root).sections.filter
          (fun sec => decide (sec.id ∉ childRefUnion (extractStructure comp root).sections))).map
          (fun sec => sec.id) := by
      simp only [extractStructure]
      exact computeRootSections_spec _
    refine ⟨hmain, fun he => ?_⟩
    rw [hmain, he]
    rfl
  · exact ⟨c2Payload, c2Cyclic, by decide, by decide, by decide⟩

/-- C2 witness: the theorem applied to the cyclic two-section payload. -/
theorem C2_root_section_inference_witness :
    parse_wiki_structure_xml true c2Payload = some c2Cyclic ∧
    c2Cyclic.root_sections =
      (c2Cyclic.sections.filter
        (fun sec => decide (sec.id ∉ childRefUnion c2Cyclic.sections))).map
        (fun sec => sec.id) := by
  refine ⟨by decide, ?_⟩
  exact (C2_root_section_inference.1 true c2Payload c2Cyclic (by decide)).1

/-! ## Claim C3 -/

/-- Concrete payload with a missing id, a blank id, and a duplicated id. -/
def c3Payload : String := "<wiki_structure><title>T</title><pages><page><title>A</title></page><page id=\"\"><title>B</title></page><page id=\"x\"><title>C</title></page><page id=\"x\"><title>D</title></page></pages></wiki_structure>"

/-- C3 counterexample: the parser accepts this payload, keeps the blank id
(instead of synthesizing `page-2`), and keeps both duplicated ids, so the
resulting page ids are not unique. -/
theorem C3_counterexample :
    (parse_wiki_structure_xml true c3Payload).map
        (fun w => w.pages.map (fun p => p.id)) =
      some ["page-1", "", "x", "x"] ∧
    ¬ (["page-1", "", "x", "x"] : List String).Nodup ∧
    ("" : String) ≠ "page-2" := by
  exact ⟨by decide, by decide, by decide⟩

/-- C3 (amended): each page's id is the `id` attribute value when that
attribute is present (even when blank), and otherwise the synthesized
fallback `page-<n>` with `n` the 1-based creation order; uniqueness is not
enforced.  Every parse result arises from this extraction. -/
theorem C3_page_id_assignment_amended :
    (∀ (comp : Bool) (root : Xml),
      (extractStructure comp root).pages.length = (pageElems root).length ∧
      ∀ (i : Nat) (h1 : i < (extractStructure comp root).pages.length)
        (h2 : i < (pageElems root).length),
        ((extractStructure comp root).pages.get ⟨i, h1⟩).id =
          ((pageElems root).get ⟨i, h2⟩).attrD "id" ("page-" ++ toString (i + 1))) ∧
    (∀ (comp : Bool) (s : String) (w : WikiStructure),
      parse_wiki_structure_xml comp s = some w →
        ∃ root, w = extractStructure comp root) := by
  constructor
  · intro comp root
    constructor
    · simp [extractStructure]
    · intro i h1 h2
      simp [extractStructure, mkWikiPage, List.get_eq_getElem, List.getElem_map,
        List.getElem_enum]
  · exact parse_some_extract

/-- Concrete single-page element tree for the C3 witness. -/
def c3Root : Xml :=
  Xml.elem "wiki_structure" [] none
    [Xml.elem "pages" [] none [Xml.elem "page" [("id", "z")] none []]]

/-- C3 witness: the amended theorem applied at index 0 of a concrete tree. -/
theorem C3_page_id_assignment_amended_witness :
    (0 < (extractStructure true c3Root).pages.length ∧
      0 < (pageElems c3Root).length) ∧
    ((extractStructure true c3Root).pages.get ⟨0, by decide⟩).id =
      ((pageElems c3Root).get ⟨0, by decide⟩).attrD "id"
        ("page-" ++ toString (0 + 1)) := by
  refine ⟨⟨by decide, by decide⟩, ?_⟩
  exact (C3_page_id_assignment_amended.1 true c3Root).2 0 (by decide) (by decide)

/-! ## Claim C7 -/

/-- C7: every extracted page's importance is one of the three tokens, and
any source importance value that is not exactly one of them (absent, empty,
or otherwise) is silently normalized to `medium`. -/
theorem C7_importance_normalization :
    ∀ (comp : Bool) (root : Xml),
      (∀ p ∈ (extractStructure comp root).pages,
        p.importance = "high" ∨ p.importance = "medium" ∨ p.importance = "low") ∧
      (∀ (i : Nat) (h1 : i < (extractStructure comp root).pages.length)
        (h2 : i < (pageElems root).length),
        ¬(((pageElems root).get ⟨i, h2⟩).findtextD "importance" "medium" = "high" ∨
          ((pageElems root).get ⟨i, h2⟩).findtextD "importance" "medium" = "medium" ∨
          ((pageElems root).get ⟨i, h2⟩).findtextD "importance" "medium" = "low") →
        ((extractStructure comp root).pages.get ⟨i, h1⟩).importance = "medium") := by
  intro comp root
  constructor
  · intro p hp
    simp only [extractStructure, List.mem_map] at hp
    obtain ⟨q, hq, rfl⟩ := hp
    show (mkWikiPage q.1 q.2).importance = "high" ∨ _ ∨ _
    by_cases hr : (q.2.findtextD "importance" "medium" = "high" ∨
        q.2.findtextD "importance" "medium" = "medium" ∨
        q.2.findtextD "importance" "medium" = "low")
    · simp only [mkWikiPage, if_pos hr]
      exact hr
    · simp only [mkWikiPage, if_neg hr]
      right; left; trivial
  · intro i h1 h2 hbad
    simp only [extractStructure, List.get_eq_getElem, List.getElem_map,
      List.getElem_enum] at hbad ⊢
    simp only [mkWikiPage, if_neg hbad]

/-- Concrete element tree with an invalid importance token. -/
def c7Root : Xml :=
  Xml.elem "wiki_structure" [] none
    [Xml.elem "pages" [] none
      [Xml.elem "page" [] none [Xml.elem "importance" [] (some "CRITICAL") []]]]

/-- C7 witness: the theorem applied to a page whose importance token is
`CRITICAL`, which normalizes to `medium`. -/
theorem C7_importance_normalization_witness :
    (0 < (extractStructure true c7Root).pages.length ∧
      ¬(((pageElems c7Root).get ⟨0, by decide⟩).findtextD "importance" "medium" = "high" ∨
        ((pageElems c7Root).get ⟨0, by decide⟩).findtextD "importance" "medium" = "medium" ∨
        ((pageElems c7Root).get ⟨0, by decide⟩).findtextD "importance" "medium" = "low")) ∧
    ((extractStructure true c7Root).pages.get ⟨0, by decide⟩).importance = "medium" := by
  refine ⟨⟨by decide, by decide⟩, ?_⟩
  exact (C7_importance_normalization true c7Root).2 0 (by decide) (by decide) (by decide)

/-! ## Claim C10 -/

/-- C10: for every input string, the function returns a value (a structure
or `None`); every internal failure of the body (the `ET.fromstring` parse
error) is caught and mapped to `None`, and a successful body run is
returned unchanged. -/
theorem C10_total_no_exception :
    ∀ (comp : Bool) (s : String),
      (∀ e, parseWikiStructureBody comp s = Except.error e →
        parse_wiki_structure_xml comp s = none) ∧
      (∀ r, parseWikiStructureBody comp s = Except.ok r →
        parse_wiki_structure_xml comp s = r) := by
  intro comp s
  constructor
  · intro e he
    unfold parseWikiStructureBody at he
    unfold parse_wiki_structure_xml
    cases h1 : findSpan (cleanupChars s.data) with
    | none => simp [h1]
    | some sp =>
      cases h2 : fromstringChars sp with
      | error e2 => simp [h1, h2]
      | ok root => simp [h1, h2] at he
  · intro r hr
    unfold parseWikiStructureBody at hr
    unfold parse_wiki_structure_xml
    cases h1 : findSpan (cleanupChars s.data) with
    | none =>
      simp [h1] at hr
      simp [h1, hr]
    | some sp =>
      cases h2 : fromstringChars sp with
      | error e2 => simp [h1, h2] at hr
      | ok root =>
        simp [h1, h2] at hr
        simp [h1, h2, hr]

/-- Concrete malformed input for the C10 witness. -/
def c10Bad : String := "<wiki_structure><a</wiki_structure>"

/-- C10 witness: a span whose XML parse raises is caught and becomes
`none`. -/
theorem C10_total_no_exception_witness :
    parseWikiStructureBody true c10Bad = Except.error XmlError.malformed ∧
    parse_wiki_structure_xml true c10Bad = none := by
  refine ⟨by decide, ?_⟩
  exact (C10_total_no_exception true c10Bad).1 XmlError.malformed (by decide)

/-! ## Claim C1 -/

/-- Two concrete pages for the C1 counterexample. -/
def c1PageA : WikiPage :=
  { id := "p1", title := "Alpha", content := "", file_paths := [],
    importance := "medium", related_pages := [], parent_id := none,
    is_section := false, children := none }

def c1PageB : WikiPage :=
  { id := "p2", title := "Beta", content := "", file_paths := [],
    importance := "medium", related_pages := [], parent_id := none,
    is_section := false, children := none }

def c1Structure : WikiStructure :=
  { id := "wiki", title := "W", description := "D",
    pages := [c1PageA, c1PageB], sections := [], root_sections := [] }

/-- Generator stub: empty response for `Alpha`, content for `Beta`. -/
def c1Gen : WikiPage → Option String :=
  fun p => if p.id = "p1" then some "" else some "Body"

/-- C1 counterexample: the page with the empty response is skipped (warned,
not persisted) and the run continues, but its link line still appears in
the index, which lists every page of the structure. -/
theorem C1_counterexample :
    (runPages c1Gen c1Structure.pages).written = [("Beta.md", "Body")] ∧
    (runPages c1Gen c1Structure.pages).warnings = ["Alpha"] ∧
    indexLinkLine c1PageA ∈ indexLines c1Structure ∧
    "Alpha.md" ∉ (runPages c1Gen c1Structure.pages).written.map Prod.fst := by
  exact ⟨by decide, by decide, by decide, by decide⟩

/-- C1 (amended): a page with an empty or absent Generator response is
recorded as a warning and not persisted while the loop continues, and the
persisted artifacts are exactly those of the pages with non-empty
responses, in declaration order; the index artifact, however, contains a
link line for every page of the structure in declaration order, including
skipped pages. -/
theorem C1_skip_and_index_amended :
    ∀ (gen : WikiPage → Option String) (w : WikiStructure),
      (runPages gen w.pages).written =
        w.pages.filterMap (fun p => processPageResponse p (gen p)) ∧
      (runPages gen w.pages).warnings =
        (w.pages.filter (fun p => (processPageResponse p (gen p)).isNone)).map
          (fun p => p.title) ∧
      indexLines w = w.pages.map indexLinkLine ∧
      (∀ p ∈ w.pages, indexLinkLine p ∈ indexLines w) := by
  intro gen w
  obtain ⟨hw, hl⟩ := runPages_foldl gen w.pages { written := [], warnings := [] }
  refine ⟨by simpa [runPages] using hw, by simpa [runPages] using hl, rfl, ?_⟩
  intro p hp
  exact List.mem_map_of_mem indexLinkLine hp

/-- C1 witness: the amended theorem applied to the concrete two-page run. -/
theorem C1_skip_and_index_amended_witness :
    c1PageA ∈ c1Structure.pages ∧
    indexLinkLine c1PageA ∈ indexLines c1Structure := by
  refine ⟨by decide, ?_⟩
  exact (C1_skip_and_index_amended c1Gen c1Structure).2.2.2 c1PageA (by decide)

/-! ## Claim C5 -/

def c5F1a : RetrievedDoc := { file_path := some "F1", text := "a" }
def c5F2b : RetrievedDoc := { file_path := some "F2", text := "b" }
def c5F1c : RetrievedDoc := { file_path := some "F1", text := "c" }

/-- C5 counterexample: the page-content assembler does not group at all --
the same file path `F1` is emitted as two separate blocks -- and the
structure-discovery assembler joins its groups with a plain blank line, the
dash run appearing only once at the start. -/
theorem C5_counterexample :
    pageContextText [c5F1a, c5F2b, c5F1c] =
      "File: F1\na\n\n---\n\nFile: F2\nb\n\n---\n\nFile: F1\nc" ∧
    structureContextText [c5F1a, c5F2b] =
      "\n\n----------## File Path: F1\n\na\n\n## File Path: F2\n\nb" := by
  exact ⟨by decide, by decide⟩

/-- C5 (amended): the structure-discovery assembler groups fragments by
file path preserving first-seen order of distinct paths (keys are the
distinct paths in first-seen order, no path forms two groups, and each
group holds exactly that file's fragments in retrieval order, joined by a
blank line under a header), but groups are joined by a plain blank line
with a single dash run prepended once; the page-content assembler performs
no grouping at all, rendering each fragment as its own `File:` block joined
by `---` separators, capped at the first 15 fragments. -/
theorem C5_context_assembly_amended :
    ∀ (docs : List RetrievedDoc),
      ((groupDocsByFile docs).map Prod.fst =
        firstSeenPaths [] (docs.map docPath)) ∧
      ((groupDocsByFile docs).map Prod.fst).Nodup ∧
      (∀ fp, (((groupDocsByFile docs).lookup fp).getD []) =
        docs.filter (fun d => decide (docPath d = fp))) ∧
      (structureContextText docs = if docs.isEmpty then ""
        else "\n\n" ++ "----------" ++
          String.intercalate "\n\n" (structureContextParts docs)) ∧
      (pageContextText docs = if docs.isEmpty then ""
        else String.intercalate "\n\n---\n\n"
          ((docs.take 15).map pageFragmentBlock)) := by
  intro docs
  refine ⟨?_, ?_, ?_, rfl, rfl⟩
  · have := groupFold_keys docs []
    simpa [groupDocsByFile] using this
  · have hk := groupFold_keys docs ([] : List (String × List RetrievedDoc))
    have : (groupDocsByFile docs).map Prod.fst =
        firstSeenPaths [] (docs.map docPath) := by
      simpa [groupDocsByFile] using hk
    rw [this]
    exact (firstSeen_nodup_disjoint (docs.map docPath) []).1
  · intro fp
    have := groupFold_lookup docs [] fp
    simpa [groupDocsByFile] using this

/-! ## Claim C6 -/

/-- C6: the page-content context is built from exactly the first 15
fragments of the retrieval result: appending further fragments past 15
changes nothing, and the rendered context is exactly the first 15 blocks. -/
theorem C6_fragment_cap :
    ∀ (docs extra : List RetrievedDoc), 15 ≤ docs.length →
      pageContextText (docs ++ extra) = pageContextText docs ∧
      pageContextText docs =
        String.intercalate "\n\n---\n\n" ((docs.take 15).map pageFragmentBlock) ∧
      (docs.take 15).length = 15 := by
  intro docs extra h
  have hne : docs.isEmpty = false := by
    cases docs with
    | nil => simp at h
    | cons a as => rfl
  have hne2 : (docs ++ extra).isEmpty = false := by
    cases docs with
    | nil => simp at h
    | cons a as => rfl
  have htake : (docs ++ extra).take 15 = docs.take 15 := take_append_le docs extra 15 h
  refine ⟨?_, ?_, ?_⟩
  · rw [pageContextText, pageContextText, hne, hne2, htake]
  · rw [pageContextText, hne]
    simp
  · simp [List.length_take]
    omega

/-- Twenty concrete fragments across three files for the C6 witness. -/
def c6Docs : List RetrievedDoc :=
  (List.range 20).map (fun n =>
    { file_path := some (if n % 3 = 0 then "FA" else if n % 3 = 1 then "FB" else "FC"),
      text := toString n })

/-- C6 witness: with 20 retrieved fragments across 3 files, appending more
fragments does not change the assembled context. -/
theorem C6_fragment_cap_witness :
    15 ≤ c6Docs.length ∧
    pageContextText (c6Docs ++ [c5F1a]) = pageContextText c6Docs ∧
    (c6Docs.take 15).length = 15 := by
  refine ⟨by decide, ?_, ?_⟩
  · exact (C6_fragment_cap c6Docs [c5F1a] (by decide)).1
  · exact (C6_fragment_cap c6Docs [c5F1a] (by decide)).2.2

/-! ## Claim C8 -/

/-- Repository declared as github-like hosting kind but whose canonical URL
has a hostname containing no hosting marker. -/
def c8InfoA : RepoInfo :=
  { owner := "o", repo := "r", type := "github", token := none,
    local_path := none, repo_url := some "https://example.org/owner/repo" }

/-- Repository declared as gitlab-like hosting kind but with a github.com
canonical URL. -/
def c8InfoB : RepoInfo :=
  { owner := "o", repo := "r", type := "gitlab", token := none,
    local_path := none, repo_url := some "https://github.com/o/r" }

/-- C8 counterexample: the derived link does not follow the hosting kind's
template -- a github-kind repository with a non-github hostname gets the raw
path, and a gitlab-kind repository with a github.com URL gets the github
template. -/
theorem C8_counterexample :
    c8InfoA.type = "github" ∧
    generate_file_url (WikiGenerator_init c8InfoA) "a.py" = "a.py" ∧
    generate_file_url (WikiGenerator_init c8InfoA) "a.py" ≠
      specFileUrl c8InfoA.type "https://example.org/owner/repo" "main" "a.py" ∧
    c8InfoB.type = "gitlab" ∧
    generate_file_url (WikiGenerator_init c8InfoB) "a.py" =
      "https://github.com/o/r" ++ "/blob/" ++ "main" ++ "/" ++ "a.py" ∧
    generate_file_url (WikiGenerator_init c8InfoB) "a.py" ≠
      specFileUrl c8InfoB.type "https://github.com/o/r" "main" "a.py" := by
  exact ⟨by decide, by decide, by decide, by decide, by decide, by decide⟩

/-- C8 (amended): the branch always defaults to `main`; the `local` kind
(and a missing or empty canonical URL, or a URL without a recognizable
hostname) yields the raw path; for every other repository the dispatch is
by the canonical URL's lowercased hostname -- a hostname containing
`github` uses the blob template, else one containing `gitlab` uses the
dash-blob template, else one containing `bitbucket` uses the src template
(each of the three under branch `main`), else the raw path; the
declared hosting kind plays no part beyond the `local` test. -/
theorem C8_file_url_amended :
    ∀ (info : RepoInfo) (path : String),
      (WikiGenerator_init info).default_branch = "main" ∧
      (info.type = "local" →
        generate_file_url (WikiGenerator_init info) path = path) ∧
      (info.type ≠ "local" → (info.repo_url = none ∨ info.repo_url = some "") →
        generate_file_url (WikiGenerator_init info) path = path) ∧
      (∀ url h, info.type ≠ "local" → info.repo_url = some url → url ≠ "" →
        hostnameOf url = some h →
        (containsSub "github".data h.data = true →
          generate_file_url (WikiGenerator_init info) path =
            url ++ "/blob/" ++ "main" ++ "/" ++ path) ∧
        (containsSub "github".data h.data = false →
          containsSub "gitlab".data h.data = true →
          generate_file_url (WikiGenerator_init info) path =
            url ++ "/-/blob/" ++ "main" ++ "/" ++ path) ∧
        (containsSub "github".data h.data = false →
          containsSub "gitlab".data h.data = false →
          containsSub "bitbucket".data h.data = true →
          generate_file_url (WikiGenerator_init info) path =
            url ++ "/src/" ++ "main" ++ "/" ++ path) ∧
        (containsSub "github".data h.data = false →
          containsSub "gitlab".data h.data = false →
          containsSub "bitbucket".data h.data = false →
          generate_file_url (WikiGenerator_init info) path = path)) ∧
      (∀ url, info.type ≠ "local" → info.repo_url = some url → url ≠ "" →
        hostnameOf url = none →
        generate_file_url (WikiGenerator_init info) path = path) := by
  intro info path
  refine ⟨rfl, ?_, ?_, ?_, ?_⟩
  · intro hl
    simp [generate_file_url, WikiGenerator_init, hl]
  · intro hnl hu
    cases hu with
    | inl h => simp [generate_file_url, WikiGenerator_init, hnl, h]
    | inr h => simp [generate_file_url, WikiGenerator_init, hnl, h]
  · intro url h hnl hu hne hh
    refine ⟨?_, ?_, ?_, ?_⟩
    · intro hg
      simp [generate_file_url, WikiGenerator_init, hnl, hu, hne, hh, hg]
    · intro hg hgl
      simp [generate_file_url, WikiGenerator_init, hnl, hu, hne, hh, hg, hgl]
    · intro hg hgl hbb
      simp [generate_file_url, WikiGenerator_init, hnl, hu, hne, hh, hg, hgl, hbb]
    · intro hg hgl hbb
      simp [generate_file_url, WikiGenerator_init, hnl, hu, hne, hh, hg, hgl, hbb]
  · intro url hnl hu hne hh
    simp [generate_file_url, WikiGenerator_init, hnl, hu, hne, hh]

/-- C8 witness: the amended theorem applied to a github.com repository. -/
theorem C8_file_url_amended_witness :
    (c8InfoB.type ≠ "local" ∧ c8InfoB.repo_url = some "https://github.com/o/r" ∧
      hostnameOf "https://github.com/o/r" = some "github.com" ∧
      containsSub "github".data "github.com".data = true) ∧
    generate_file_url (WikiGenerator_init c8InfoB) "x/y.py" =
      "https://github.com/o/r" ++ "/blob/" ++ "main" ++ "/" ++ "x/y.py" := by
  refine ⟨⟨by decide, by decide, by decide, by decide⟩, ?_⟩
  exact (((C8_file_url_amended c8InfoB "x/y.py").2.2.2.1 "https://github.com/o/r"
    "github.com" (by decide) (by decide) (by decide) (by decide)).1 (by decide))

/-! ## Claim C4 -/

/-- C4: parsing fails with `StructureNotFound` exactly when no span is
located in the cleaned text, fails with `MalformedStructure` when the
located span does not parse as XML, never returns a partial structure on
failure (`None` iff a failure outcome), and the span handed to the XML
parser is the non-greedy first span: it starts at the first occurrence of
the opening tag and ends at the first closing tag after it. -/
theorem C4_parse_failure_semantics :
    ∀ (comp : Bool) (s : String),
      (findSpan (cleanupChars s.data) = none →
        parse_wiki_structure_xml comp s = none ∧
        parseOutcome comp s = Except.error ParseFailure.structureNotFound) ∧
      (∀ sp, findSpan (cleanupChars s.data) = some sp →
        (∀ e, fromstringChars sp = Except.error e →
          parse_wiki_structure_xml comp s = none ∧
          parseOutcome comp s = Except.error ParseFailure.malformedStructure) ∧
        (∀ root, fromstringChars sp = Except.ok root →
          parse_wiki_structure_xml comp s = some (extractStructure comp root)) ∧
        (∃ i k, occursAt openTagChars (cleanupChars s.data) i ∧
          (∀ j, j < i → ¬ occursAt openTagChars (cleanupChars s.data) j) ∧
          occursAt closeTagChars (cleanupChars s.data) (i + 16 + k) ∧
          (∀ q, q < k → ¬ occursAt closeTagChars (cleanupChars s.data) (i + 16 + q)) ∧
          sp = ((cleanupChars s.data).drop i).take (16 + k + 17))) ∧
      (parse_wiki_structure_xml comp s = none ↔
        ∃ e, parseOutcome comp s = Except.error e) := by
  intro comp s
  refine ⟨?_, ?_, ?_⟩
  · intro h
    constructor
    · unfold parse_wiki_structure_xml
      simp [h]
    · unfold parseOutcome
      simp [h]
  · intro sp hsp
    have hsp' := hsp
    unfold findSpan at hsp'
    cases h1 : firstOccur openTagChars (cleanupChars s.data) with
    | none => simp [h1] at hsp'
    | some i =>
      cases h2 : firstOccur closeTagChars (((cleanupChars s.data).drop i).drop 16) with
      | none =>
        simp only [List.drop_drop] at h2
        simp [h1, h2] at hsp'
      | some k =>
        simp only [List.drop_drop] at h2
        simp [h1, h2] at hsp'
        refine ⟨?_, ?_, ?_⟩
        · intro e he
          constructor
          · unfold parse_wiki_structure_xml
            simp [hsp, he]
          · unfold parseOutcome
            simp [hsp, he]
        · intro root hroot
          unfold parse_wiki_structure_xml
          simp [hsp, hroot]
        · refine ⟨i, k, ?_, ?_, ?_, ?_, ?_⟩
          · exact firstOccur_some_occurs _ _ _ h1
          · exact fun j hj => firstOccur_some_min _ _ _ h1 j hj
          · have ho := firstOccur_some_occurs _ _ _ h2
            unfold occursAt at ho ⊢
            simp only [List.drop_drop] at ho
            exact ho
          · intro q hq hc
            have hmin := firstOccur_some_min _ _ _ h2 q hq
            apply hmin
            unfold occursAt at hc ⊢
            simp only [List.drop_drop]
            exact hc
          · rw [← hsp']
  · unfold parse_wiki_structure_xml parseOutcome
    cases h1 : findSpan (cleanupChars s.data) with
    | none => simp
    | some sp =>
      cases h2 : fromstringChars sp with
      | error e => simp [h2]
      | ok root => simp [h2]

/-- C4 witness: a spanless input fails with `StructureNotFound` and yields
no structure. -/
theorem C4_parse_failure_semantics_witness :
    findSpan (cleanupChars "no xml here".data) = none ∧
    parse_wiki_structure_xml true "no xml here" = none ∧
    parseOutcome true "no xml here" = Except.error ParseFailure.structureNotFound := by
  refine ⟨by decide, ?_, ?_⟩
  · exact ((C4_parse_failure_semantics true "no xml here").1 (by decide)).1
  · exact ((C4_parse_failure_semantics true "no xml here").1 (by decide)).2

/-! ## Claim C9 -/

lemma bool_false_of_not_true {b : Bool} (h : ¬ b = true) : b = false := by
  cases b with
  | false => rfl
  | true => exact absurd rfl h

lemma fence_not_at_head_append (l rest : List Char) (c : Char)
    (hl : l.head? = some c) (hc : c ≠ '`') :
    fenceChars.isPrefixOf (l ++ rest) = false := by
  cases l with
  | nil => simp at hl
  | cons a as =>
    simp at hl
    rw [List.cons_append]
    exact fence_not_at_head a (as ++ rest) (hl ▸ hc)

/-- C9: wrapping an accepted payload (one that is control-clean and
contains no triple-backtick run) in a Markdown fenced code block preceded
by a leading explanatory sentence parses to the same WikiStructure; and
parsing is deterministic, so parsing the same payload twice yields equal
results. -/
theorem C9_wrap_invariance :
    ∀ (comp : Bool) (p : String) (w : WikiStructure),
      parse_wiki_structure_xml comp p = some w →
      firstOccur fenceChars p.data = none →
      cleanCtl p.data = p.data →
      parse_wiki_structure_xml comp (wrapPayload p) = some w ∧
      (∀ w2, parse_wiki_structure_xml comp p = some w2 → w2 = w) := by
  intro comp p w hparse hfence hctl
  have hidem : ∀ w2, parse_wiki_structure_xml comp p = some w2 → w2 = w := by
    intro w2 h2
    rw [hparse] at h2
    exact (Option.some.inj h2).symm
  have hnofence : ∀ j, ¬ occursAt fenceChars p.data j :=
    firstOccur_none_nowhere _ _ hfence
  have hlead : stripLeadingFence p.data = p.data := by
    apply stripLeading_of_no_fence
    have h0 := hnofence 0
    unfold occursAt at h0
    rw [List.drop_zero] at h0
    exact bool_false_of_not_true h0
  have htrail : stripTrailingFence p.data = p.data := by
    apply stripTrailing_of_no_match
    intro i
    apply fenceWsAt_false_of_no_fence
    exact bool_false_of_not_true (hnofence i)
  have hcleanp : cleanupChars p.data = p.data := by
    unfold cleanupChars
    rw [hctl, hlead, htrail]
  have hp := hparse
  unfold parse_wiki_structure_xml at hp
  rw [hcleanp] at hp
  cases hfs : findSpan p.data with
  | none => simp [hfs] at hp
  | some sp =>
    cases hfrom : fromstringChars sp with
    | error e => simp [hfs, hfrom] at hp
    | ok root =>
      simp [hfs, hfrom] at hp
      have hfs' := hfs
      unfold findSpan at hfs'
      cases h1 : firstOccur openTagChars p.data with
      | none => simp [h1] at hfs'
      | some i =>
        cases h2 : firstOccur closeTagChars ((p.data.drop i).drop 16) with
        | none =>
          simp only [List.drop_drop] at h2
          simp [h1, h2] at hfs'
        | some k =>
          have h2n := h2
          simp only [List.drop_drop] at h2n
          simp [h1, h2n] at hfs'
          have hobound := firstOccur_le_length openTagChars p.data i h1
          have holen : openTagChars.length = 16 := by decide
          have hcbound := firstOccur_le_length closeTagChars _ k h2n
          have hclen : closeTagChars.length = 17 := by decide
          rw [hclen, List.length_drop] at hcbound
          have hi16 : i + 16 ≤ p.data.length := by omega
          have hwdata := wrap_data p
          have hclean : cleanCtl (wrapPayload p).data = (wrapPayload p).data := by
            rw [hwdata, cleanCtl_append, cleanCtl_append, hctl]
            have e1 : cleanCtl wrapPre = wrapPre := by decide
            have e2 : cleanCtl ('\n' :: fenceChars) = '\n' :: fenceChars := by decide
            rw [e1, e2]
          have hleadw : stripLeadingFence (wrapPayload p).data = (wrapPayload p).data := by
            apply stripLeading_of_no_fence
            rw [hwdata]
            exact fence_not_at_head_append wrapPre _ 'H' (by decide) (by decide)
          have htrailw : stripTrailingFence (wrapPayload p).data =
              wrapPre ++ p.data ++ ['\n'] := by
            rw [hwdata]
            have hassoc : wrapPre ++ (p.data ++ ('\n' :: fenceChars)) =
                (wrapPre ++ p.data ++ ['\n']) ++ fenceChars := by
              simp [List.append_assoc]
            rw [hassoc, stripTrailing_cut_last_fence]
          have hcleanw : cleanupChars (wrapPayload p).data =
              wrapPre ++ p.data ++ ['\n'] := by
            unfold cleanupChars
            rw [hclean, hleadw, htrailw]
          have hopen1 : firstOccur openTagChars (p.data ++ ['\n']) = some i :=
            firstOccur_extend _ _ _ _ h1
          have hopen2 : firstOccur openTagChars (wrapPre ++ (p.data ++ ['\n'])) =
              some (wrapPre.length + i) :=
            firstOccur_shift openTagChars '<' ("wiki_structure>".data) (by decide)
              wrapPre (p.data ++ ['\n']) (by decide) i hopen1
          have hdrop1 : (wrapPre ++ (p.data ++ ['\n'])).drop (wrapPre.length + i) =
              p.data.drop i ++ ['\n'] := by
            rw [drop_append_add]
            exact drop_append_le p.data ['\n'] i (by omega)
          have hdrop2 : ((wrapPre ++ (p.data ++ ['\n'])).drop (wrapPre.length + i)).drop 16 =
              p.data.drop (i + 16) ++ ['\n'] := by
            rw [hdrop1]
            rw [drop_append_le (p.data.drop i) ['\n'] 16 (by rw [List.length_drop]; omega)]
            rw [List.drop_drop]
          have hclose : firstOccur closeTagChars (p.data.drop (i + 16) ++ ['\n']) = some k :=
            firstOccur_extend _ _ _ _ h2n
          have hspan : findSpan (wrapPre ++ p.data ++ ['\n']) = some sp := by
            have hassoc2 : wrapPre ++ p.data ++ ['\n'] = wrapPre ++ (p.data ++ ['\n']) := by
              simp [List.append_assoc]
            rw [hassoc2]
            unfold findSpan
            rw [hopen2]
            rw [Option.some_bind]
            rw [hdrop2, hclose, Option.map_some']
            rw [hdrop1]
            rw [take_append_le (p.data.drop i) ['\n'] (16 + k + 17)
              (by rw [List.length_drop]; omega)]
            rw [hfs']
          constructor
          · unfold parse_wiki_structure_xml
            rw [hcleanw, hspan]
            simp [hfrom, hp]
          · exact hidem

/-- Concrete payload for the C9 witness. -/
def c9Payload : String := "<wiki_structure><title>T</title><description>D</description><pages><page id=\"p1\"><title>A</title><importance>high</importance></page></pages></wiki_structure>"

def c9Page : WikiPage :=
  { id := "p1", title := "A", content := "", file_paths := [],
    importance := "high", related_pages := [], parent_id := none,
    is_section := false, children := none }

def c9Expected : WikiStructure :=
  { id := "wiki", title := "T", description := "D",
    pages := [c9Page], sections := [], root_sections := [] }

/-- C9 witness: the theorem applied to a concrete clean payload, whose
wrapped form parses to the same structure. -/
theorem C9_wrap_invariance_witness :
    (parse_wiki_structure_xml true c9Payload = some c9Expected ∧
      firstOccur fenceChars c9Payload.data = none ∧
      cleanCtl c9Payload.data = c9Payload.data) ∧
    parse_wiki_structure_xml true (wrapPayload c9Payload) = some c9Expected := by
  refine ⟨⟨by decide, by decide, by decide⟩, ?_⟩
  exact (C9_wrap_invariance true c9Payload c9Expected (by decide) (by decide)
    (by decide)).1
